import Mathlib

/-!
Verification development for the node-mapnik vector tile binding
(`src/mapnik_vector_tile.cpp`).

The development shallowly embeds the query engine, the tile buffer
entry points (`addData`/`setData`/`getData`/`clear`), and the
constructor validation.  Coordinates and distances are modelled as
rationals; the external mapnik primitives (point distance,
point-to-segment distance, the per-edge ray-crossing test `pip`, and
the WGS84/mercator projection) are parameters of the model, bundled in
`GeomPrims`.  `std::sort` is modelled by its C++ postcondition: the
output is a permutation of the input that is sorted with respect to
the comparator.
-/

namespace NodeMapnik

/-- A 2-d point with rational coordinates (models `mapnik::geometry::point<double>`). -/
structure Pt where
  x : ℚ
  y : ℚ
deriving DecidableEq, Repr

/-- Result of the point-to-geometry distance visitor (`detail::p2p_result`):
`distance` starts at `-1` (meaning "no hit"), hit coordinates start at `0`. -/
structure P2pResult where
  distance : ℚ
  x_hit : ℚ
  y_hit : ℚ
deriving DecidableEq, Repr

/-- The default-constructed `p2p_result`: distance `-1`, hit `(0,0)`. -/
def P2pResult.mk0 : P2pResult := ⟨-1, 0, 0⟩

/-- External mapnik primitives used by the query engine, kept abstract:
`dist` is `mapnik::distance`, `segDist` is `mapnik::point_to_segment_distance`,
`pip` is `mapnik::detail::pip` (one edge of the ray-casting test),
`projForward`/`projBackward` are `proj_transform::forward/backward`
(the source notes the forward transform can never fail). -/
structure GeomPrims where
  dist : ℚ → ℚ → ℚ → ℚ → ℚ
  segDist : ℚ → ℚ → ℚ → ℚ → ℚ → ℚ → ℚ
  pip : ℚ → ℚ → ℚ → ℚ → ℚ → ℚ → Bool
  projForward : ℚ → ℚ → ℚ × ℚ
  projBackward : ℚ → ℚ → ℚ × ℚ

/-- A polygon: one exterior ring and a list of interior rings
(models `mapnik::geometry::polygon<double>`). -/
structure Polygon where
  exterior : List Pt
  interiors : List (List Pt)
deriving DecidableEq, Repr

/-- The decoded geometry model (`mapnik::geometry::geometry<double>`). -/
inductive Geom where
  | empty
  | point (p : Pt)
  | multiPoint (ps : List Pt)
  | lineString (ps : List Pt)
  | multiLineString (ls : List (List Pt))
  | polygon (poly : Polygon)
  | multiPolygon (polys : List Polygon)
  | geometryCollection (gs : List Geom)

/-- The "keep the closer sub-result" update appearing in every
multi-variant of the visitor:
`if (sub.distance >= 0 && (acc.distance < 0 || sub.distance < acc.distance)) acc = sub`. -/
def p2pCombine (acc sub : P2pResult) : P2pResult :=
  if 0 ≤ sub.distance ∧ (acc.distance < 0 ∨ sub.distance < acc.distance) then sub else acc

/-- `p2p_distance::operator()(point)`. -/
def p2pPoint (prims : GeomPrims) (x y : ℚ) (p : Pt) : P2pResult :=
  { distance := prims.dist p.x p.y x y, x_hit := p.x, y_hit := p.y }

/-- Consecutive vertex pairs of a part: the source iterates `i = 1 .. n-1`
over pairs `(pt[i-1], pt[i])`. -/
def edges (ps : List Pt) : List (Pt × Pt) := ps.zip ps.tail

/-- One step of the line-string scan: probe segment `(e.1, e.2)` and keep it
if its distance is nonnegative and smaller than the best so far; the hit
point is recorded as the segment's first vertex, as in the source. -/
def p2pSegStep (prims : GeomPrims) (x y : ℚ) (acc : P2pResult) (e : Pt × Pt) : P2pResult :=
  let d := prims.segDist x y e.1.x e.1.y e.2.x e.2.y
  if 0 ≤ d ∧ (acc.distance < 0 ∨ d < acc.distance) then
    { distance := d, x_hit := e.1.x, y_hit := e.1.y }
  else acc

/-- `p2p_distance::operator()(line_string)`. -/
def p2pLineString (prims : GeomPrims) (x y : ℚ) (ps : List Pt) : P2pResult :=
  if 1 < ps.length then (edges ps).foldl (p2pSegStep prims x y) P2pResult.mk0
  else P2pResult.mk0

/-- The ray-casting toggle over one ring: `if (pip(pt0, pt1, q)) inside = !inside`
for each consecutive vertex pair. -/
def ringToggle (pip : ℚ → ℚ → ℚ → ℚ → ℚ → ℚ → Bool) (x y : ℚ) (inside : Bool)
    (ps : List Pt) : Bool :=
  (edges ps).foldl (fun b e => if pip e.1.x e.1.y e.2.x e.2.y x y then !b else b) inside

/-- `p2p_distance::operator()(polygon)`: exterior rings with fewer than 4
points yield no hit; the even-odd test runs over the exterior ring, bails
out when it reports outside, and is then toggled by every interior ring
with at least 4 points; containment gives distance `0`, otherwise no hit. -/
def p2pPolygon (prims : GeomPrims) (x y : ℚ) (poly : Polygon) : P2pResult :=
  if poly.exterior.length < 4 then P2pResult.mk0
  else
    let inside := ringToggle prims.pip x y false poly.exterior
    if !inside then P2pResult.mk0
    else
      let inside2 := poly.interiors.foldl
        (fun b ring => if ring.length < 4 then b else ringToggle prims.pip x y b ring) inside
      if inside2 then { P2pResult.mk0 with distance := 0 } else P2pResult.mk0

mutual

/-- The full visitor `detail::p2p_distance` / `path_to_point_distance`. -/
def p2pGeom (prims : GeomPrims) (x y : ℚ) : Geom → P2pResult
  | .empty => P2pResult.mk0
  | .point p => p2pPoint prims x y p
  | .multiPoint ps =>
      ps.foldl (fun acc p => p2pCombine acc (p2pPoint prims x y p)) P2pResult.mk0
  | .lineString ps => p2pLineString prims x y ps
  | .multiLineString ls =>
      ls.foldl (fun acc l => p2pCombine acc (p2pLineString prims x y l)) P2pResult.mk0
  | .polygon poly => p2pPolygon prims x y poly
  | .multiPolygon polys =>
      polys.foldl (fun acc p => p2pCombine acc (p2pPolygon prims x y p)) P2pResult.mk0
  | .geometryCollection gs => p2pGeomList prims x y gs P2pResult.mk0
termination_by structural g => g

/-- The fold over a geometry collection (marked unreachable in the source
but present in the visitor). -/
def p2pGeomList (prims : GeomPrims) (x y : ℚ) : List Geom → P2pResult → P2pResult
  | [], acc => acc
  | g :: gs, acc => p2pGeomList prims x y gs (p2pCombine acc (p2pGeom prims x y g))
termination_by structural gs => gs

end

/-- A decoded vector-tile feature, reduced to the data the query engine
touches: an identifier and a geometry. -/
structure Feature where
  fid : ℕ
  geom : Geom

/-- A tile layer: a name and its features.
Modelled from the spec: the layer view produced by the tile buffer
(`tile_datasource_pbf`) yields the layer's name and its decoded features
in scan order. -/
structure Layer where
  name : String
  features : List Feature

/-- The query-side view of a vector tile: its registration and decoded
layers in buffer order. -/
structure VTile where
  z : ℤ
  x : ℤ
  y : ℤ
  tile_size : ℤ
  buffer_size : ℤ
  layers : List Layer

/-- Modelled from the spec: `tile::is_empty` — "no layers or all layers
empty", i.e. every layer has no features. -/
def VTile.is_empty (t : VTile) : Bool :=
  t.layers.all (fun l => l.features.isEmpty)

/-- Modelled from the spec: `tile::layer_reader(name)` scans the layers in
buffer order and returns the first one whose name matches, if any. -/
def layer_reader (t : VTile) (name : String) : Option Layer :=
  t.layers.find? (fun l => l.name == name)

/-- One element of the list built by `VectorTile::_query` (`query_result`). -/
structure QueryResult where
  fid : ℕ
  layer : String
  distance : ℚ
  x_hit : ℚ
  y_hit : ℚ
deriving DecidableEq, Repr

/-- Processing of one feature inside `_query`'s scan loop: compute the
point-to-geometry distance, back-project the hit point, and keep the
feature iff `p2p.distance >= 0 && p2p.distance <= tolerance`. -/
def featureHit (prims : GeomPrims) (x y tolerance : ℚ) (lname : String)
    (f : Feature) : Option QueryResult :=
  let p2p := p2pGeom prims x y f.geom
  let back := prims.projBackward p2p.x_hit p2p.y_hit
  if 0 ≤ p2p.distance ∧ p2p.distance ≤ tolerance then
    some { fid := f.fid, layer := lname, distance := p2p.distance,
           x_hit := back.1, y_hit := back.2 }
  else none

/-- The hits contributed by one layer, in feature scan order.
Modelled from the spec: `features_at_point` scans the layer's features
(its bounding-box pre-filter only discards features that cannot hit). -/
def layerHits (prims : GeomPrims) (x y tolerance : ℚ) (l : Layer) : List QueryResult :=
  l.features.filterMap (featureHit prims x y tolerance l.name)

/-- The unsorted hit list built by `VectorTile::_query` before the final
`std::sort`: empty tiles return immediately; a nonempty layer name scans
just that layer (missing layer: no hits); an empty layer name scans every
layer in buffer order. -/
def queryHits (prims : GeomPrims) (t : VTile) (lon lat tolerance : ℚ)
    (layer_name : String) : List QueryResult :=
  if t.is_empty then []
  else
    let m := prims.projForward lon lat
    if layer_name ≠ "" then
      match layer_reader t layer_name with
      | some l => layerHits prims m.1 m.2 tolerance l
      | none => []
    else
      (t.layers.map (layerHits prims m.1 m.2 tolerance)).flatten

/-- The comparator `VectorTile::_querySort`: `a.distance < b.distance`. -/
def _querySort (a b : QueryResult) : Bool :=
  a.distance < b.distance

/-- The postcondition of `std::sort(arr, _querySort)`: the output is a
permutation of the input and is sorted with respect to the comparator
(no adjacent-or-later pair is strictly decreasing).  `std::sort` promises
nothing more — in particular not stability. -/
def querySortedSpec (inp out : List QueryResult) : Prop :=
  inp.Perm out ∧ out.Pairwise (fun a b => ¬ _querySort b a)

/-- The full `VectorTile::_query` as a relation between its arguments and
the returned list (relational because of `std::sort`). -/
def queryRel (prims : GeomPrims) (t : VTile) (lon lat tolerance : ℚ)
    (layer_name : String) (out : List QueryResult) : Prop :=
  querySortedSpec (queryHits prims t lon lat tolerance layer_name) out

/-! ### Concrete instantiation of the external primitives

Used to evaluate the model on concrete inputs.  `ratSqDist` is an exact
rational stand-in for the (floating-point) Euclidean primitives; `ratPip`
follows the shape of `mapnik::detail::pip`; the projections are taken as
the identity. -/

/-- Squared Euclidean distance, an exact computable stand-in for
`mapnik::distance`. -/
def ratSqDist (x0 y0 x1 y1 : ℚ) : ℚ :=
  (x0 - x1) * (x0 - x1) + (y0 - y1) * (y0 - y1)

/-- A computable stand-in for `mapnik::point_to_segment_distance`:
the smaller squared distance to the two segment endpoints. -/
def ratSegDist (x y ax ay bx by_ : ℚ) : ℚ :=
  min (ratSqDist x y ax ay) (ratSqDist x y bx by_)

/-- The edge ray-crossing test, following `mapnik::detail::pip`. -/
def ratPip (x0 y0 x1 y1 x y : ℚ) : Bool :=
  (((y1 ≤ y) ∧ (y < y0)) ∨ ((y0 ≤ y) ∧ (y < y1))) ∧
    (x < (x0 - x1) * (y - y1) / (y0 - y1) + x1)

/-- The concrete primitive bundle used on concrete inputs. -/
def ratPrims : GeomPrims :=
  { dist := ratSqDist
    segDist := ratSegDist
    pip := ratPip
    projForward := fun a b => (a, b)
    projBackward := fun a b => (a, b) }

/-! ### Tile buffer model: merge / clear / setData / getData

The tile buffer (`mapnik::vector_tile_impl::merc_tile`) lives outside the
binding file; it is modelled from the spec as a registration plus the
ordered list of raw layer messages held in the tile's byte buffer. -/

/-- A raw byte buffer. -/
abbrev Buffer : Type := List ℕ

/-- One raw layer protobuf sub-message (an opaque byte chunk including its
field header). -/
abbrev LayerMsg : Type := List ℕ

/-- The buffer-side view of a tile: registration plus the raw layer
messages of its byte buffer.
Modelled from the spec: the Tile message is just repeated Layer
sub-messages, so the buffer content is determined by the layer list. -/
structure MTile where
  z : ℤ
  x : ℤ
  y : ℤ
  tile_size : ℤ
  buffer_size : ℤ
  layers : List LayerMsg

/-- The raw bytes of the tile's buffer (`tile_->data()` / `tile_->size()`).
Modelled from the spec: the buffer is the concatenation of the layer
messages. -/
def MTile.data (t : MTile) : List ℕ := t.layers.flatten

/-- Modelled from the spec: `merge_from_compressed_buffer` appends every
layer message found in the (possibly compressed) input verbatim.  The
protobuf/compression scan itself is the abstract `extract`. -/
def merge_from_compressed_buffer (extract : Buffer → List LayerMsg)
    (t : MTile) (buf : Buffer) : MTile :=
  { t with layers := t.layers ++ extract buf }

/-- Modelled from the spec: `tile::clear` drops all layers and resets the
derived sets, keeping the registration. -/
def MTile.clear (t : MTile) : MTile :=
  { t with layers := [] }

/-- A freshly constructed tile with the given registration (the body of
the `VectorTile` C++ constructor: an empty buffer). -/
def freshTile (z x y tile_size buffer_size : ℤ) : MTile :=
  { z := z, x := x, y := y, tile_size := tile_size, buffer_size := buffer_size,
    layers := [] }

/-- `VectorTile::_addDataSync` after argument unwrapping, as a state
transformer returning the new tile state and an optional error: an empty
buffer is rejected before any mutation. -/
def _addDataSync (extract : Buffer → List LayerMsg) (t : MTile) (buf : Buffer) :
    MTile × Option String :=
  if buf.length ≤ 0 then (t, some "cannot accept empty buffer as protobuf")
  else (merge_from_compressed_buffer extract t buf, none)

/-- The worker body `VectorTile::EIO_AddData` (the async path): the same
empty-buffer check before the merge. -/
def eioAddData (extract : Buffer → List LayerMsg) (t : MTile) (buf : Buffer) :
    MTile × Option String :=
  if buf.length ≤ 0 then (t, some "cannot accept empty buffer as protobuf")
  else (merge_from_compressed_buffer extract t buf, none)

/-- `VectorTile::_setDataSync` after argument unwrapping: the empty-buffer
check comes first, then `clear()` followed by the merge. -/
def _setDataSync (extract : Buffer → List LayerMsg) (t : MTile) (buf : Buffer) :
    MTile × Option String :=
  if buf.length ≤ 0 then (t, some "cannot accept empty buffer as protobuf")
  else (merge_from_compressed_buffer extract t.clear buf, none)

/-- The worker body `VectorTile::EIO_SetData` (the async path). -/
def eioSetData (extract : Buffer → List LayerMsg) (t : MTile) (buf : Buffer) :
    MTile × Option String :=
  if buf.length ≤ 0 then (t, some "cannot accept empty buffer as protobuf")
  else (merge_from_compressed_buffer extract t.clear buf, none)

/-- `VectorTile::_clearSync`: unconditional `clear()`. -/
def _clearSync (t : MTile) : MTile := t.clear

/-- `VectorTile::New`: the validation sequence of the constructor.  `z`,
`x`, `y` must be nonnegative, `tile_size` positive, and
`tile_size + 2*buffer_size` strictly positive; only then is a tile
created. -/
def vectorTile_new (z x y tile_size buffer_size : ℤ) : Except String MTile :=
  if z < 0 ∨ x < 0 ∨ y < 0 then
    .error "required parameters (z, x, and y) must be greater then or equal to zero"
  else if tile_size ≤ 0 then
    .error "optional arg tile_size must be greater then zero"
  else if tile_size + 2 * buffer_size ≤ 0 then
    .error "too large of a negative buffer for tilesize"
  else
    .ok (freshTile z x y tile_size buffer_size)

/-! ### getData -/

/-- zlib strategies accepted by `getData`. -/
inductive ZStrategy where
  | filtered
  | huffman_only
  | rle
  | fixed
  | default_strategy
deriving DecidableEq, Repr

/-- The strategy-string dispatch in `_getDataSync`. -/
def parseStrategy (s : String) : Option ZStrategy :=
  if s = "FILTERED" then some .filtered
  else if s = "HUFFMAN_ONLY" then some .huffman_only
  else if s = "RLE" then some .rle
  else if s = "FIXED" then some .fixed
  else if s = "DEFAULT" then some .default_strategy
  else none

/-- `Z_DEFAULT_COMPRESSION`. -/
def Z_DEFAULT_COMPRESSION : ℤ := -1

/-- Observable outcome of `getDataSync`: an uncompressed buffer, a
compressed buffer (the compression step ran), or an error. -/
inductive GetDataOut where
  | plain (bytes : List ℕ)
  | gz (bytes : List ℕ)
  | err (msg : String)
deriving DecidableEq

/-- The tail of `VectorTile::_getDataSync` after option parsing: a
zero-size raw buffer returns an empty buffer at once; oversized buffers
error; otherwise the raw bytes are returned, compressed only when
requested.  `zlib` abstracts `zlib_compress`. -/
def getDataBody (zlib : List ℕ → ℤ → ZStrategy → List ℕ) (kMax : ℕ)
    (t : MTile) (compress : Bool) (level : ℤ) (strategy : ZStrategy) : GetDataOut :=
  let raw := t.data
  if raw.length ≤ 0 then .plain []
  else if kMax ≤ raw.length then
    .err "Data is too large to convert to a node Buffer"
  else if !compress then .plain raw
  else .gz (zlib raw level strategy)

/-- `VectorTile::_getDataSync`: option parsing (`compression` equal to
"gzip" turns compression on; `level` must lie in `0..9`; `strategy` must
be one of the five strategy strings) followed by `getDataBody`. -/
def _getDataSync (zlib : List ℕ → ℤ → ZStrategy → List ℕ) (kMax : ℕ)
    (t : MTile) (compression : Option String) (levelOpt : Option ℤ)
    (strategyOpt : Option String) : GetDataOut :=
  let compress := compression == some "gzip"
  if levelOpt.any (fun lv => decide (lv < 0 ∨ 9 < lv)) then
    .err "option level must be an integer between 0 (no compression) and 9 (best compression) inclusive"
  else
    let level := levelOpt.getD Z_DEFAULT_COMPRESSION
    match strategyOpt with
    | none => getDataBody zlib kMax t compress level .default_strategy
    | some s =>
      match parseStrategy s with
      | none =>
        .err "option strategy must be one of the following strings: FILTERED, HUFFMAN_ONLY, RLE, FIXED, DEFAULT"
      | some st => getDataBody zlib kMax t compress level st

/-! ### queryMany -/

/-- One hit of `queryMany` (`query_hit`): the distance and the index of
the hit feature in the shared feature table. -/
structure QueryHit where
  distance : ℚ
  feature_id : ℕ
deriving DecidableEq, Repr

/-- The state built by the `_queryMany` scan loop: the shared feature
table keyed by first-hit insertion index, the per-point hit lists keyed
by query-point index, and the running feature index. -/
structure QMState where
  features : List (ℕ × QueryResult)
  hits : List (ℕ × List QueryHit)
  idx : ℕ

/-- `std::map::insert`: inserting an already present key is a no-op. -/
def mapInsert (k : ℕ) (v : QueryResult) (m : List (ℕ × QueryResult)) :
    List (ℕ × QueryResult) :=
  if m.any (fun p => p.1 == k) then m else m ++ [(k, v)]

/-- Append a hit to the hit list of query point `p`, creating the entry
when absent (the `hits.find` / `push_back` block of `_queryMany`). -/
def hitsAdd (p : ℕ) (h : QueryHit) : List (ℕ × List QueryHit) → List (ℕ × List QueryHit)
  | [] => [(p, [h])]
  | e :: rest => if e.1 = p then (e.1, e.2 ++ [h]) :: rest else e :: hitsAdd p h rest

/-- The inner loop body of `_queryMany` over one (index, mercator point)
pair for a fixed feature: on a hit (`0 <= d <= tolerance`) the feature is
inserted into the table under the current index (distance recorded as `0`
in the table, as in the source) and a `query_hit` is appended for the
point; the Boolean tracks `has_hit`. -/
def qmPointStep (prims : GeomPrims) (lname : String) (tolerance : ℚ) (f : Feature)
    (acc : QMState × Bool) (pp : ℕ × (ℚ × ℚ)) : QMState × Bool :=
  let p2p := p2pGeom prims pp.2.1 pp.2.2 f.geom
  if 0 ≤ p2p.distance ∧ p2p.distance ≤ tolerance then
    let st := acc.1
    let res : QueryResult :=
      { fid := f.fid, layer := lname, distance := 0, x_hit := 0, y_hit := 0 }
    let hit : QueryHit := { distance := p2p.distance, feature_id := st.idx }
    ({ st with
        features := mapInsert st.idx res st.features
        hits := hitsAdd pp.1 hit st.hits }, true)
  else acc

/-- The outer loop body of `_queryMany` over one feature: scan all query
points, then advance the feature index only if the feature hit at least
one point. -/
def qmFeatureStep (prims : GeomPrims) (lname : String) (tolerance : ℚ)
    (points : List (ℕ × (ℚ × ℚ))) (st : QMState) (f : Feature) : QMState :=
  let r := points.foldl (qmPointStep prims lname tolerance f) (st, false)
  if r.2 then { r.1 with idx := r.1.idx + 1 } else r.1

/-- `VectorTile::_queryMany` up to (excluding) the final per-point
`std::sort`: a missing layer is a hard error raised before any result is
produced.  The attribute-filtered feature scan of the layer is modelled
from the spec as a scan of all its features. -/
def _queryMany (prims : GeomPrims) (t : VTile) (query : List (ℚ × ℚ))
    (tolerance : ℚ) (layer_name : String) : Except String QMState :=
  match layer_reader t layer_name with
  | none => .error "Could not find layer in vector tile"
  | some l =>
    let points := (query.map (fun q => prims.projForward q.1 q.2)).enum
    .ok (l.features.foldl (qmFeatureStep prims l.name tolerance points)
      { features := [], hits := [], idx := 0 })

/-- The `VectorTile::queryMany` entry point: an empty layer name is
rejected before anything is dispatched. -/
def queryMany (prims : GeomPrims) (t : VTile) (query : List (ℚ × ℚ))
    (tolerance : ℚ) (layer_name : String) : Except String QMState :=
  if layer_name = "" then .error "options.layer is required"
  else _queryMany prims t query tolerance layer_name

/-! ### The spec's sort for C1: ascending by distance and stable -/

/-- Insert a hit into an already sorted list, before the first strictly
farther element — the stable insertion used to state what a stable
ascending sort would return. -/
def insertHitByDistance (a : QueryResult) : List QueryResult → List QueryResult
  | [] => [a]
  | b :: l =>
    if a.distance ≤ b.distance then a :: b :: l else b :: insertHitByDistance a l

/-- The sort the spec sentence describes for C1: ascending by distance,
stable with respect to the insertion (scan) order on ties. -/
def stableSortByDistance : List QueryResult → List QueryResult
  | [] => []
  | a :: l => insertHitByDistance a (stableSortByDistance l)

/-! ### Lemmas about the hit scan -/

theorem mem_layerHits_bounds {prims : GeomPrims} {x y tolerance : ℚ} {l : Layer}
    {r : QueryResult} (h : r ∈ layerHits prims x y tolerance l) :
    0 ≤ r.distance ∧ r.distance ≤ tolerance := by
  rcases List.mem_filterMap.mp h with ⟨f, -, hf⟩
  simp only [featureHit] at hf
  split at hf
  · rename_i hc
    cases hf
    exact hc
  · cases hf

theorem mem_queryHits_bounds {prims : GeomPrims} {t : VTile} {lon lat tolerance : ℚ}
    {name : String} {r : QueryResult}
    (h : r ∈ queryHits prims t lon lat tolerance name) :
    0 ≤ r.distance ∧ r.distance ≤ tolerance := by
  unfold queryHits at h
  split at h
  · cases h
  · split at h
    · split at h
      · exact mem_layerHits_bounds h
      · cases h
    · rcases List.mem_flatten.mp h with ⟨s, hs, hr⟩
      rcases List.mem_map.mp hs with ⟨l, -, rfl⟩
      exact mem_layerHits_bounds hr

theorem featureHit_mono {prims : GeomPrims} {x y : ℚ} {t1 t2 : ℚ} {lname : String}
    {f : Feature} {r : QueryResult} (hle : t1 ≤ t2)
    (h : featureHit prims x y t1 lname f = some r) :
    featureHit prims x y t2 lname f = some r := by
  simp only [featureHit] at h ⊢
  split at h
  · rename_i hc
    rw [if_pos ⟨hc.1, le_trans hc.2 hle⟩]
    exact h
  · cases h

theorem layerHits_mono {prims : GeomPrims} {x y : ℚ} {t1 t2 : ℚ} {l : Layer}
    {r : QueryResult} (hle : t1 ≤ t2) (h : r ∈ layerHits prims x y t1 l) :
    r ∈ layerHits prims x y t2 l := by
  rcases List.mem_filterMap.mp h with ⟨f, hfm, hf⟩
  exact List.mem_filterMap.mpr ⟨f, hfm, featureHit_mono hle hf⟩

theorem mem_queryHits_mono {prims : GeomPrims} {t : VTile} {lon lat : ℚ}
    {name : String} {r : QueryResult} {t1 t2 : ℚ} (hle : t1 ≤ t2)
    (h : r ∈ queryHits prims t lon lat t1 name) :
    r ∈ queryHits prims t lon lat t2 name := by
  unfold queryHits at h ⊢
  split at h
  · cases h
  · rename_i he
    rw [if_neg he]
    split at h
    · rename_i hn
      rw [if_pos hn]
      split at h
      · exact layerHits_mono hle (by simpa using h)
      · cases h
    · rename_i hn
      rw [if_neg hn]
      rcases List.mem_flatten.mp h with ⟨s, hs, hr⟩
      rcases List.mem_map.mp hs with ⟨l, hlm, rfl⟩
      exact List.mem_flatten.mpr
        ⟨layerHits prims (prims.projForward lon lat).1 (prims.projForward lon lat).2 t2 l,
         List.mem_map.mpr ⟨l, hlm, rfl⟩, layerHits_mono hle hr⟩

/-! ### Concrete tiles used for evaluation -/

/-- A tile with a single layer `"l"` holding two point features that sit
at the same location (hence at equal query distance). -/
def twoPointTile : VTile :=
  { z := 0, x := 0, y := 0, tile_size := 4096, buffer_size := 128,
    layers := [{ name := "l",
                 features := [{ fid := 1, geom := .point ⟨0, 0⟩ },
                              { fid := 2, geom := .point ⟨0, 0⟩ }] }] }

/-- A tile with a single layer `"l"` holding one point feature. -/
def onePointTile : VTile :=
  { z := 0, x := 0, y := 0, tile_size := 4096, buffer_size := 128,
    layers := [{ name := "l", features := [{ fid := 1, geom := .point ⟨0, 0⟩ }] }] }

theorem queryHits_twoPointTile_eval :
    queryHits ratPrims twoPointTile 0 0 0 "l" =
      [⟨1, "l", 0, 0, 0⟩, ⟨2, "l", 0, 0, 0⟩] := by
  simp [queryHits, twoPointTile, VTile.is_empty, layer_reader, layerHits, featureHit,
        p2pGeom, p2pPoint, ratPrims, ratSqDist]

theorem queryHits_onePointTile_eval :
    queryHits ratPrims onePointTile 0 0 0 "l" = [⟨1, "l", 0, 0, 0⟩] := by
  simp [queryHits, onePointTile, VTile.is_empty, layer_reader, layerHits, featureHit,
        p2pGeom, p2pPoint, ratPrims, ratSqDist]

/-! ### C1 -/

/-- C1 counterexample: querying `twoPointTile` at the shared feature
location yields two hits at distance `0`, in scan order `fid 1, fid 2`.
The list `[fid 2, fid 1]` satisfies the `std::sort` postcondition and is
therefore a possible return value of `query`, yet it differs from the
stable ascending sort of the hits — so the returned list is not stable
with respect to insertion order on ties. -/
theorem query_stability_counterexample :
    queryRel ratPrims twoPointTile 0 0 0 "l"
      [⟨2, "l", 0, 0, 0⟩, ⟨1, "l", 0, 0, 0⟩] ∧
    [(⟨2, "l", 0, 0, 0⟩ : QueryResult), ⟨1, "l", 0, 0, 0⟩] ≠
      stableSortByDistance (queryHits ratPrims twoPointTile 0 0 0 "l") := by
  refine ⟨⟨?_, ?_⟩, ?_⟩
  · rw [queryHits_twoPointTile_eval]
    exact List.Perm.swap _ _ _
  · simp [_querySort]
  · rw [queryHits_twoPointTile_eval]
    simp [stableSortByDistance, insertHitByDistance]

/-- C1 (amended): every list `query` can return contains exactly the
features whose computed distance `d` satisfies `0 ≤ d ≤ tolerance`, and
it is sorted ascending by distance; the relative order of equal-distance
hits is unspecified (`std::sort` is not stable). -/
theorem query_exact_hits_sorted (prims : GeomPrims) (t : VTile)
    (lon lat tolerance : ℚ) (name : String) (out : List QueryResult)
    (h : queryRel prims t lon lat tolerance name out) :
    (∀ r, r ∈ out ↔ r ∈ queryHits prims t lon lat tolerance name) ∧
    (∀ r ∈ out, 0 ≤ r.distance ∧ r.distance ≤ tolerance) ∧
    out.Pairwise (fun a b => a.distance ≤ b.distance) := by
  obtain ⟨hp, hs⟩ := h
  refine ⟨fun r => (hp.mem_iff).symm, fun r hr => ?_, ?_⟩
  · exact mem_queryHits_bounds (hp.mem_iff.mpr hr)
  · refine hs.imp ?_
    intro a b hab
    simpa [_querySort, not_lt] using hab

/-- Witness for C1 (amended) at a concrete query of `onePointTile`. -/
theorem query_exact_hits_sorted_witness :
    (∀ r, r ∈ [(⟨1, "l", 0, 0, 0⟩ : QueryResult)] ↔
        r ∈ queryHits ratPrims onePointTile 0 0 0 "l") ∧
    (∀ r ∈ [(⟨1, "l", 0, 0, 0⟩ : QueryResult)],
        0 ≤ r.distance ∧ r.distance ≤ 0) ∧
    ([(⟨1, "l", 0, 0, 0⟩ : QueryResult)]).Pairwise
      (fun a b => a.distance ≤ b.distance) :=
  query_exact_hits_sorted ratPrims onePointTile 0 0 0 "l"
    [⟨1, "l", 0, 0, 0⟩]
    ⟨by rw [queryHits_onePointTile_eval], by simp⟩

/-! ### C3, C4, C9 -/

theorem queryHits_onePointTile_tol1_eval :
    queryHits ratPrims onePointTile 0 0 1 "l" = [⟨1, "l", 0, 0, 0⟩] := by
  simp [queryHits, onePointTile, VTile.is_empty, layer_reader, layerHits, featureHit,
        p2pGeom, p2pPoint, ratPrims, ratSqDist]

/-- C3: any hit returned by `query` at tolerance `t1` is also returned at
any tolerance `t2 ≥ t1` — the scan filter `0 ≤ d ≤ tolerance` only
relaxes, and sorting permutes without dropping. -/
theorem query_tolerance_monotone (prims : GeomPrims) (t : VTile) (lon lat : ℚ)
    (name : String) (t1 t2 : ℚ) (out1 out2 : List QueryResult) (r : QueryResult)
    (hle : t1 ≤ t2)
    (h1 : queryRel prims t lon lat t1 name out1)
    (h2 : queryRel prims t lon lat t2 name out2)
    (hr : r ∈ out1) : r ∈ out2 :=
  h2.1.mem_iff.mp (mem_queryHits_mono hle (h1.1.mem_iff.mpr hr))

/-- Witness for C3: the distance-0 hit returned at tolerance 0 is also
returned at tolerance 1. -/
theorem query_tolerance_monotone_witness :
    (⟨1, "l", 0, 0, 0⟩ : QueryResult) ∈ [(⟨1, "l", 0, 0, 0⟩ : QueryResult)] :=
  query_tolerance_monotone ratPrims onePointTile 0 0 "l" 0 1
    [⟨1, "l", 0, 0, 0⟩] [⟨1, "l", 0, 0, 0⟩] ⟨1, "l", 0, 0, 0⟩
    (by norm_num)
    ⟨by rw [queryHits_onePointTile_eval], by simp⟩
    ⟨by rw [queryHits_onePointTile_tol1_eval], by simp⟩
    (by simp)

theorem queryHits_missing_layer (prims : GeomPrims) (t : VTile) (lon lat tolerance : ℚ)
    {name : String} (hne : name ≠ "") (hmiss : ∀ l ∈ t.layers, l.name ≠ name) :
    queryHits prims t lon lat tolerance name = [] := by
  have hlr : layer_reader t name = none := by
    unfold layer_reader
    exact List.find?_eq_none.mpr (fun l hl => by simp [hmiss l hl])
  unfold queryHits
  split
  · rfl
  · simp only [hlr, if_pos hne]

/-- C4: a single-point query naming a layer not present in the tile
returns the empty list (and, the model being total, raises no error). -/
theorem query_missing_layer_empty (prims : GeomPrims) (t : VTile)
    (lon lat tolerance : ℚ) (name : String) (out : List QueryResult)
    (hne : name ≠ "") (hmiss : ∀ l ∈ t.layers, l.name ≠ name)
    (h : queryRel prims t lon lat tolerance name out) : out = [] := by
  have hq := queryHits_missing_layer prims t lon lat tolerance hne hmiss
  have hp := h.1
  rw [hq] at hp
  exact hp.symm.eq_nil

theorem queryHits_onePointTile_nope_eval :
    queryHits ratPrims onePointTile 0 0 0 "nope" = [] := by
  simp [queryHits, onePointTile, VTile.is_empty, layer_reader, layerHits]

/-- Witness for C4: querying `onePointTile` for the absent layer
`"nope"` returns the empty list. -/
theorem query_missing_layer_empty_witness : ([] : List QueryResult) = [] :=
  query_missing_layer_empty ratPrims onePointTile 0 0 0 "nope" []
    (by simp) (by simp [onePointTile])
    ⟨by rw [queryHits_onePointTile_nope_eval], by simp⟩

/-- C9: a tile whose `is_empty` predicate holds returns the empty list
for every longitude, latitude, tolerance and layer name (the scan is
short-circuited before any layer is read). -/
theorem query_empty_tile (prims : GeomPrims) (t : VTile)
    (lon lat tolerance : ℚ) (name : String) (out : List QueryResult)
    (he : t.is_empty = true) (h : queryRel prims t lon lat tolerance name out) :
    out = [] := by
  have hq : queryHits prims t lon lat tolerance name = [] := by
    unfold queryHits
    rw [if_pos he]
  have hp := h.1
  rw [hq] at hp
  exact hp.symm.eq_nil

/-- An entirely empty tile. -/
def emptyTile : VTile :=
  { z := 0, x := 0, y := 0, tile_size := 4096, buffer_size := 128, layers := [] }

/-- Witness for C9: querying the empty tile returns the empty list. -/
theorem query_empty_tile_witness : ([] : List QueryResult) = [] :=
  query_empty_tile ratPrims emptyTile 0 0 0 "l" []
    (by simp [emptyTile, VTile.is_empty])
    ⟨by simp [queryHits, emptyTile, VTile.is_empty], by simp⟩

/-! ### C2: even-odd containment for polygons -/

/-- The distance-0 result produced for a contained polygon. -/
def P2pZero : P2pResult := { P2pResult.mk0 with distance := 0 }

/-- Number of ring edges the `pip` crossing test reports for the query
point. -/
def ringCrossings (pip : ℚ → ℚ → ℚ → ℚ → ℚ → ℚ → Bool) (x y : ℚ) (ps : List Pt) : ℕ :=
  (edges ps).countP (fun e => pip e.1.x e.1.y e.2.x e.2.y x y)

/-- Total crossings contributed by the interior rings having at least 4
points (rings with fewer points are skipped by the scan). -/
def interiorCrossings (pip : ℚ → ℚ → ℚ → ℚ → ℚ → ℚ → Bool) (x y : ℚ)
    (ints : List (List Pt)) : ℕ :=
  ((ints.filter (fun r => !decide (r.length < 4))).map (ringCrossings pip x y)).sum

/-- The even-odd containment verdict the spec sentence describes: the
ray-cast parity over the exterior ring decides containment, and each
interior ring with at least 4 points then toggles that verdict (an
outside verdict from the exterior ring is final, so containment holds
exactly when the exterior parity is odd and the interior toggles cancel
out). -/
def evenOddContains (pip : ℚ → ℚ → ℚ → ℚ → ℚ → ℚ → Bool) (x y : ℚ)
    (poly : Polygon) : Bool :=
  decide (Odd (ringCrossings pip x y poly.exterior)) &&
    decide (¬ Odd (interiorCrossings pip x y poly.interiors))

theorem foldl_toggle_parity (P : Pt × Pt → Bool) (l : List (Pt × Pt)) :
    ∀ b : Bool, l.foldl (fun b e => if P e then !b else b) b
      = if Odd (l.countP P) then !b else b := by
  induction l with
  | nil => intro b; simp
  | cons e l ih =>
    intro b
    simp only [List.foldl_cons, List.countP_cons]
    rw [ih]
    by_cases hP : P e = true
    · simp only [hP, if_pos rfl, if_true]
      by_cases hc : Odd (l.countP P) <;>
        simp [hc, Nat.odd_add_one]
    · simp [hP]

theorem ringToggle_parity (pip : ℚ → ℚ → ℚ → ℚ → ℚ → ℚ → Bool) (x y : ℚ)
    (b : Bool) (ps : List Pt) :
    ringToggle pip x y b ps = if Odd (ringCrossings pip x y ps) then !b else b :=
  foldl_toggle_parity _ _ b

theorem interior_foldl_parity (pip : ℚ → ℚ → ℚ → ℚ → ℚ → ℚ → Bool) (x y : ℚ)
    (ints : List (List Pt)) :
    ∀ b : Bool,
      ints.foldl (fun b ring => if ring.length < 4 then b else ringToggle pip x y b ring) b
        = if Odd (interiorCrossings pip x y ints) then !b else b := by
  induction ints with
  | nil => intro b; simp [interiorCrossings]
  | cons r ints ih =>
    intro b
    simp only [List.foldl_cons]
    by_cases hlen : r.length < 4
    · rw [if_pos hlen, ih]
      simp [interiorCrossings, List.filter_cons, hlen]
    · rw [if_neg hlen, ih, ringToggle_parity]
      have hic : interiorCrossings pip x y (r :: ints)
          = ringCrossings pip x y r + interiorCrossings pip x y ints := by
        simp [interiorCrossings, List.filter_cons, hlen]
      rw [hic]
      have hoa : Odd (ringCrossings pip x y r + interiorCrossings pip x y ints) ↔
          (Odd (ringCrossings pip x y r) ↔ ¬ Odd (interiorCrossings pip x y ints)) := by
        rw [Nat.odd_add, Nat.not_odd_iff_even]
      by_cases h1 : Odd (ringCrossings pip x y r) <;>
        by_cases h2 : Odd (interiorCrossings pip x y ints) <;>
          simp [h1, h2, hoa]

theorem p2pPolygon_characterization (prims : GeomPrims) (x y : ℚ) (poly : Polygon) :
    p2pPolygon prims x y poly =
      if 4 ≤ poly.exterior.length ∧ evenOddContains prims.pip x y poly = true then
        P2pZero
      else P2pResult.mk0 := by
  simp only [p2pPolygon]
  by_cases hlen : poly.exterior.length < 4
  · rw [if_pos hlen, if_neg (fun h => absurd h.1 (by omega))]
  · rw [if_neg hlen, ringToggle_parity, interior_foldl_parity]
    have h4 : 4 ≤ poly.exterior.length := Nat.not_lt.mp hlen
    by_cases hext : Odd (ringCrossings prims.pip x y poly.exterior) <;>
      by_cases hint : Odd (interiorCrossings prims.pip x y poly.interiors) <;>
        simp [hext, hint, evenOddContains, h4, P2pZero]

theorem p2pCombine_binary (acc sub : P2pResult)
    (hacc : acc = P2pZero ∨ acc = P2pResult.mk0)
    (hsub : sub = P2pZero ∨ sub = P2pResult.mk0) :
    p2pCombine acc sub =
      if acc = P2pZero ∨ sub = P2pZero then P2pZero else P2pResult.mk0 := by
  rcases hacc with rfl | rfl <;> rcases hsub with rfl | rfl <;>
    simp [p2pCombine, P2pZero, P2pResult.mk0]

theorem foldl_combine_polygons (prims : GeomPrims) (x y : ℚ) (polys : List Polygon) :
    ∀ acc, (acc = P2pZero ∨ acc = P2pResult.mk0) →
      polys.foldl (fun acc p => p2pCombine acc (p2pPolygon prims x y p)) acc =
        if acc = P2pZero ∨ polys.any
            (fun p => decide (4 ≤ p.exterior.length) && evenOddContains prims.pip x y p)
          then P2pZero else P2pResult.mk0 := by
  induction polys with
  | nil =>
    intro acc hacc
    rcases hacc with rfl | rfl <;> simp [P2pZero, P2pResult.mk0]
  | cons p polys ih =>
    intro acc hacc
    have hsub : p2pPolygon prims x y p = P2pZero ∨ p2pPolygon prims x y p = P2pResult.mk0 := by
      rw [p2pPolygon_characterization]
      split
      · exact Or.inl rfl
      · exact Or.inr rfl
    have hacc2 : p2pCombine acc (p2pPolygon prims x y p) = P2pZero ∨
        p2pCombine acc (p2pPolygon prims x y p) = P2pResult.mk0 := by
      rw [p2pCombine_binary acc _ hacc hsub]
      split
      · exact Or.inl rfl
      · exact Or.inr rfl
    simp only [List.foldl_cons, List.any_cons]
    rw [ih _ hacc2]
    rw [p2pCombine_binary acc _ hacc hsub, p2pPolygon_characterization]
    rcases hacc with rfl | rfl <;>
      by_cases hp : 4 ≤ p.exterior.length ∧ evenOddContains prims.pip x y p = true <;>
        simp [hp, P2pZero, P2pResult.mk0]

/-- C2: for a polygon the query distance is decided by the even-odd
ray-casting test: an exterior ring with fewer than 4 points yields no
hit; the distance is `0` exactly when the even-odd test (exterior ring
parity, toggled by each interior ring with at least 4 points) reports
containment, and otherwise the result is the no-hit value `-1`, which no
tolerance can turn into a hit — so no near-miss distance is ever
computed.  The same holds per part for a multi-polygon. -/
theorem polygon_query_even_odd (prims : GeomPrims) (x y : ℚ) (poly : Polygon)
    (polys : List Polygon) :
    (poly.exterior.length < 4 → p2pGeom prims x y (.polygon poly) = P2pResult.mk0) ∧
    ((p2pGeom prims x y (.polygon poly)).distance = 0 ∨
      (p2pGeom prims x y (.polygon poly)).distance = -1) ∧
    ((p2pGeom prims x y (.polygon poly)).distance = 0 ↔
      4 ≤ poly.exterior.length ∧ evenOddContains prims.pip x y poly = true) ∧
    (∀ tolerance lname fid, (p2pGeom prims x y (.polygon poly)).distance = -1 →
      featureHit prims x y tolerance lname ⟨fid, .polygon poly⟩ = none) ∧
    ((p2pGeom prims x y (.multiPolygon polys)).distance = 0 ↔
      ∃ p ∈ polys, 4 ≤ p.exterior.length ∧ evenOddContains prims.pip x y p = true) ∧
    ((p2pGeom prims x y (.multiPolygon polys)).distance = 0 ∨
      (p2pGeom prims x y (.multiPolygon polys)).distance = -1) := by
  have hpoly : p2pGeom prims x y (.polygon poly) = p2pPolygon prims x y poly := by
    simp [p2pGeom]
  have hmp : p2pGeom prims x y (.multiPolygon polys) =
      if polys.any (fun p => decide (4 ≤ p.exterior.length) &&
          evenOddContains prims.pip x y p) then P2pZero else P2pResult.mk0 := by
    rw [show p2pGeom prims x y (.multiPolygon polys) =
        polys.foldl (fun acc p => p2pCombine acc (p2pPolygon prims x y p)) P2pResult.mk0
      from by simp [p2pGeom]]
    rw [foldl_combine_polygons prims x y polys P2pResult.mk0 (Or.inr rfl)]
    simp [P2pZero, P2pResult.mk0]
  refine ⟨?_, ?_, ?_, ?_, ?_, ?_⟩
  · intro hlen
    rw [hpoly, p2pPolygon_characterization, if_neg (fun h => absurd h.1 (by omega))]
  · rw [hpoly, p2pPolygon_characterization]
    split
    · exact Or.inl rfl
    · exact Or.inr rfl
  · rw [hpoly, p2pPolygon_characterization]
    split
    · rename_i h
      simp [P2pZero, h]
    · rename_i h
      norm_num [P2pResult.mk0]
      intro h4
      rcases Bool.eq_false_or_eq_true (evenOddContains prims.pip x y poly) with ht | hf
      · exact absurd ⟨h4, ht⟩ h
      · exact hf
  · intro tolerance lname fid hd
    simp only [featureHit]
    rw [if_neg]
    intro hcond
    rw [hd] at hcond
    exact absurd hcond.1 (by norm_num)
  · rw [hmp]
    split
    · rename_i h
      rcases List.any_eq_true.mp h with ⟨p, hpm, hp⟩
      simp only [Bool.and_eq_true, decide_eq_true_eq] at hp
      norm_num [P2pZero]
      exact ⟨p, hpm, hp.1, hp.2⟩
    · rename_i h
      norm_num [P2pResult.mk0]
      intro p hpm h4
      rcases Bool.eq_false_or_eq_true (evenOddContains prims.pip x y p) with ht | hf
      · exact absurd (List.any_eq_true.mpr ⟨p, hpm, by simp [h4, ht]⟩) h
      · exact hf
  · rw [hmp]
    split
    · exact Or.inl rfl
    · exact Or.inr rfl

/-- A square polygon centred at the origin with closed exterior ring. -/
def unitSquare : Polygon :=
  { exterior := [⟨-1, -1⟩, ⟨1, -1⟩, ⟨1, 1⟩, ⟨-1, 1⟩, ⟨-1, -1⟩], interiors := [] }

theorem evenOddContains_unitSquare :
    evenOddContains ratPrims.pip 0 0 unitSquare = true := by
  norm_num [evenOddContains, ringCrossings, interiorCrossings, unitSquare, edges,
    ratPrims, ratPip, List.countP_cons, Nat.odd_iff]

/-- Witness for C2: the query point at the centre of `unitSquare` is
reported contained with distance exactly 0. -/
theorem polygon_query_even_odd_witness :
    (p2pGeom ratPrims 0 0 (.polygon unitSquare)).distance = 0 :=
  (polygon_query_even_odd ratPrims 0 0 unitSquare []).2.2.1.mpr
    ⟨by norm_num [unitSquare], evenOddContains_unitSquare⟩

/-! ### C5, C6, C7, C8, C10 -/

/-- C5: `queryMany` requires exactly one named layer: a call without a
layer name is rejected with "options.layer is required", and a call
naming a layer not present in the tile raises "Could not find layer in
vector tile" before any result is produced. -/
theorem queryMany_requires_layer (prims : GeomPrims) (t : VTile)
    (query : List (ℚ × ℚ)) (tolerance : ℚ) (name : String) :
    (queryMany prims t query tolerance "" = .error "options.layer is required") ∧
    (name ≠ "" → (∀ l ∈ t.layers, l.name ≠ name) →
      queryMany prims t query tolerance name =
        .error "Could not find layer in vector tile") := by
  constructor
  · simp [queryMany]
  · intro hne hmiss
    have hlr : layer_reader t name = none := by
      unfold layer_reader
      exact List.find?_eq_none.mpr (fun l hl => by simp [hmiss l hl])
    simp [queryMany, hne, _queryMany, hlr]

/-- Witness for C5 on `onePointTile`: the empty layer name and the absent
layer name `"nope"` are both rejected with the matching messages. -/
theorem queryMany_requires_layer_witness :
    (queryMany ratPrims onePointTile [] 0 "" = .error "options.layer is required") ∧
    queryMany ratPrims onePointTile [] 0 "nope" =
      .error "Could not find layer in vector tile" :=
  ⟨(queryMany_requires_layer ratPrims onePointTile [] 0 "nope").1,
   (queryMany_requires_layer ratPrims onePointTile [] 0 "nope").2
     (by simp) (by simp [onePointTile])⟩

/-- C6: every merge-style entry point (`addData`/`setData`, sync and
async worker bodies) rejects a zero-length buffer with "cannot accept
empty buffer as protobuf" and returns with the tile state exactly as it
was — the check precedes the `clear()`/merge. -/
theorem empty_buffer_rejected (extract : Buffer → List LayerMsg) (t : MTile)
    (buf : Buffer) (h : buf.length ≤ 0) :
    _addDataSync extract t buf = (t, some "cannot accept empty buffer as protobuf") ∧
    eioAddData extract t buf = (t, some "cannot accept empty buffer as protobuf") ∧
    _setDataSync extract t buf = (t, some "cannot accept empty buffer as protobuf") ∧
    eioSetData extract t buf = (t, some "cannot accept empty buffer as protobuf") := by
  refine ⟨?_, ?_, ?_, ?_⟩ <;>
    simp [_addDataSync, eioAddData, _setDataSync, eioSetData, h]

/-- Witness for C6 at the empty buffer and a one-layer tile. -/
theorem empty_buffer_rejected_witness :
    _addDataSync (fun b => [b]) (freshTile 1 2 3 4096 128) [] =
      (freshTile 1 2 3 4096 128, some "cannot accept empty buffer as protobuf") ∧
    eioAddData (fun b => [b]) (freshTile 1 2 3 4096 128) [] =
      (freshTile 1 2 3 4096 128, some "cannot accept empty buffer as protobuf") ∧
    _setDataSync (fun b => [b]) (freshTile 1 2 3 4096 128) [] =
      (freshTile 1 2 3 4096 128, some "cannot accept empty buffer as protobuf") ∧
    eioSetData (fun b => [b]) (freshTile 1 2 3 4096 128) [] =
      (freshTile 1 2 3 4096 128, some "cannot accept empty buffer as protobuf") :=
  empty_buffer_rejected (fun b => [b]) (freshTile 1 2 3 4096 128) [] (by simp)

/-- C7: construction rejects every registration with
`tile_size + 2*buffer_size ≤ 0` — no tile is ever created — surfacing
"too large of a negative buffer for tilesize" when the other arguments
are valid; a negative `buffer_size` with a positive sum is accepted. -/
theorem tile_construction_buffer_check (z x y tile_size buffer_size : ℤ) :
    (tile_size + 2 * buffer_size ≤ 0 →
      ∀ t, vectorTile_new z x y tile_size buffer_size ≠ .ok t) ∧
    (0 ≤ z → 0 ≤ x → 0 ≤ y → 0 < tile_size → tile_size + 2 * buffer_size ≤ 0 →
      vectorTile_new z x y tile_size buffer_size =
        .error "too large of a negative buffer for tilesize") ∧
    (0 ≤ z → 0 ≤ x → 0 ≤ y → 0 < tile_size → 0 < tile_size + 2 * buffer_size →
      vectorTile_new z x y tile_size buffer_size =
        .ok (freshTile z x y tile_size buffer_size)) := by
  refine ⟨?_, ?_, ?_⟩
  · intro hsum t
    simp only [vectorTile_new]
    split
    · simp
    · split
      · simp
      · simp [hsum]
  · intro hz hx hy hts hsum
    unfold vectorTile_new
    rw [if_neg (by omega), if_neg (by omega), if_pos hsum]
  · intro hz hx hy hts hpos
    unfold vectorTile_new
    rw [if_neg (by omega), if_neg (by omega), if_neg (by omega)]

/-- Witness for C7: `buffer_size = -2048` with `tile_size = 4096` is
rejected, while `buffer_size = -1` is accepted. -/
theorem tile_construction_buffer_check_witness :
    vectorTile_new 0 0 0 4096 (-2048) =
      .error "too large of a negative buffer for tilesize" ∧
    vectorTile_new 0 0 0 4096 (-1) = .ok (freshTile 0 0 0 4096 (-1)) :=
  ⟨(tile_construction_buffer_check 0 0 0 4096 (-2048)).2.1
      (by norm_num) (by norm_num) (by norm_num) (by norm_num) (by norm_num),
   (tile_construction_buffer_check 0 0 0 4096 (-1)).2.2
      (by norm_num) (by norm_num) (by norm_num) (by norm_num) (by norm_num)⟩

/-- C8: for a non-empty buffer, `setData` is exactly `clear()` followed
by merge, and its resulting layer content is identical to that of a
freshly constructed tile with the same registration merged once with the
same buffer. -/
theorem setData_eq_fresh_merge (extract : Buffer → List LayerMsg) (t : MTile)
    (buf : Buffer) (h : buf ≠ []) :
    (_setDataSync extract t buf).1 =
      merge_from_compressed_buffer extract (_clearSync t) buf ∧
    (_setDataSync extract t buf).1.layers =
      (_addDataSync extract
        (freshTile t.z t.x t.y t.tile_size t.buffer_size) buf).1.layers := by
  have hlen : ¬ buf.length ≤ 0 := by
    simpa [List.length_eq_zero] using h
  constructor
  · simp [_setDataSync, _clearSync, hlen]
  · simp [_setDataSync, _addDataSync, hlen, merge_from_compressed_buffer,
      MTile.clear, freshTile]

/-- A concrete tile already holding one raw layer message. -/
def oneMsgTile : MTile :=
  { z := 1, x := 2, y := 3, tile_size := 4096, buffer_size := 128, layers := [[7]] }

/-- Witness for C8 with a concrete one-byte buffer and a tile already
holding a layer. -/
theorem setData_eq_fresh_merge_witness :
    (_setDataSync (fun b => [b]) oneMsgTile [9]).1 =
      merge_from_compressed_buffer (fun b => [b]) (_clearSync oneMsgTile) [9] ∧
    (_setDataSync (fun b => [b]) oneMsgTile [9]).1.layers =
      (_addDataSync (fun b => [b])
        (freshTile oneMsgTile.z oneMsgTile.x oneMsgTile.y
          oneMsgTile.tile_size oneMsgTile.buffer_size) [9]).1.layers :=
  setData_eq_fresh_merge (fun b => [b]) oneMsgTile [9] (by simp)

theorem getDataBody_gz_needs_data {zlib : List ℕ → ℤ → ZStrategy → List ℕ}
    {kMax : ℕ} {t : MTile} {compress : Bool} {level : ℤ} {strategy : ZStrategy}
    {bytes : List ℕ}
    (h : getDataBody zlib kMax t compress level strategy = .gz bytes) :
    0 < t.data.length := by
  by_cases h0 : t.data.length ≤ 0
  · simp [getDataBody, h0] at h
  · omega

/-- C10: when the tile's raw buffer is empty, `getDataSync` returns a
zero-length plain buffer — the compression step never runs, even when
gzip with a valid explicit level and strategy was requested; conversely a
compressed result can only arise from a positive raw size. -/
theorem getData_empty_raw (zlib : List ℕ → ℤ → ZStrategy → List ℕ) (kMax : ℕ)
    (t : MTile) (compression : Option String) (level : ℤ) (s : String)
    (hlvl : 0 ≤ level ∧ level ≤ 9) (hs : (parseStrategy s).isSome = true)
    (hraw : t.data = []) :
    _getDataSync zlib kMax t compression (some level) (some s) = .plain [] ∧
    (∀ (t2 : MTile) compression2 levelOpt strategyOpt bytes,
      _getDataSync zlib kMax t2 compression2 levelOpt strategyOpt = .gz bytes →
        0 < t2.data.length) := by
  constructor
  · rcases Option.isSome_iff_exists.mp hs with ⟨st, hst⟩
    simp only [_getDataSync, Option.any_some, hst]
    rw [if_neg (by simp; omega)]
    simp [getDataBody, hraw]
  · intro t2 compression2 levelOpt strategyOpt bytes hgz
    simp only [_getDataSync] at hgz
    split at hgz
    · cases hgz
    · split at hgz
      · exact getDataBody_gz_needs_data hgz
      · split at hgz
        · cases hgz
        · exact getDataBody_gz_needs_data hgz

/-- Witness for C10: a freshly constructed (hence empty) tile with gzip,
level 9 and strategy RLE requested still yields the plain empty buffer. -/
theorem getData_empty_raw_witness :
    _getDataSync (fun b _ _ => b) 1000 (freshTile 0 0 0 4096 128)
      (some "gzip") (some 9) (some "RLE") = .plain [] :=
  (getData_empty_raw (fun b _ _ => b) 1000 (freshTile 0 0 0 4096 128)
    (some "gzip") 9 "RLE" (by norm_num) (by simp [parseStrategy])
    (by simp [freshTile, MTile.data])).1

end NodeMapnik
